import Mathlib

/-!
Shallow embedding of the nd-util crate core: the scoped-removal path
guards (DropRemovePath in drop_remove_path.rs and DropRemovePathBlocking
in lib.rs) and the atomic path downloader (download_to_path_blocking in
download_to_path.rs), together with the plain streaming helper
(download_to_file in download_to_file.rs).

The file system is modelled as a function from path strings to optional
byte lists; paths are modelled by their file-name strings. The fallible
environment of one call (the HTTP response the server gives, which
filesystem operations fail, whether the advisory lock is already held) is
an explicit World record, so one execution of the Rust code corresponds
to evaluating the model at one world. A ghost event trace records the
order of the observable operations of a downloader run.
-/

namespace NdUtil

/-- A byte, modelled as a natural number. -/
abbrev Byte := Nat

/-- The file system: a map from path strings to file contents. -/
abbrev FS := String → Option (List Byte)

/-- The empty file system. -/
def fsEmpty : FS := fun _ => none

/-- Set the contents of the file at a path, creating or truncating it. -/
def fsSet (fs : FS) (p : String) (b : List Byte) : FS :=
  fun q => if q = p then some b else fs q

/-- Remove the entry at a path from the file system. -/
def fsErase (fs : FS) (p : String) : FS :=
  fun q => if q = p then none else fs q

/-- Overwrite bytes at a position in a byte list, extending at the end,
as a write at a file cursor does. -/
def writeAt (old : List Byte) (pos : Nat) (c : List Byte) : List Byte :=
  old.take pos ++ c ++ old.drop (pos + c.length)

/-- Open-or-create without truncation: an existing file at the path
keeps its contents, a missing one is created empty. This is what the
Rust open options write plus create do, since truncate is never set. -/
def fsCreateKeep (fs : FS) (p : String) : FS :=
  fun q => if q = p then some ((fs p).getD []) else fs q

/-- One write of the downloader to the temporary file: overwrite at the
current cursor position, extending past the end of the old contents. -/
def writeTemp (fs : FS) (temp : String) (pos : Nat) (c : List Byte) : FS :=
  fun q => if q = temp then some (writeAt ((fs temp).getD []) pos c) else fs q

/-- The error kinds surfaced by the embedded code, one per fallible
operation. Each constructor corresponds to one context annotation in the
source, so an error value also names the phase that produced it. -/
inductive Err
  | openFailed
  | lockFailed
  | requestFailed
  | badStatus (code : Nat)
  | chunkFailed
  | writeFailed
  | flushFailed
  | syncFailed
  | renameFailed
  | unlockFailed
  | removeFailed
  | removeNotFound
  | preallocateFailed
  | lengthMismatch (contentLength actualLength : Nat)
deriving DecidableEq

/-- Model of an HTTP response: a status code, an optional declared
content length, the body chunks that arrive successfully in order, and
whether the stream errors after those chunks instead of ending cleanly. -/
structure Response where
  status : Nat
  content_length : Option Nat
  chunks : List (List Byte)
  streamError : Bool
deriving DecidableEq

/-- reqwest error_for_status fails exactly on the client and server error
status classes, that is on any status of at least 400. -/
def error_for_status (status : Nat) : Bool := 400 ≤ status

/-- The environment one call runs in: the platform capability flag
LOCKING_SUPPORTED, the response the server gives (none means the request
itself fails), and which fallible filesystem operations fail. -/
structure World where
  lockingSupported : Bool
  openFails : Bool
  tempLocked : Bool
  response : Option Response
  writeFailAt : Option Nat
  flushFails : Bool
  syncFails : Bool
  renameFails : Bool
  unlockFails : Bool
  removeFails : Bool
  setLenFails : Bool

/-- Model of std remove_file and tokio remove_file: fails when the world
injects a fault or when no file exists at the path. -/
def removeFile (w : World) (fs : FS) (p : String) : Except Err FS :=
  if w.removeFails then .error .removeFailed
  else
    match fs p with
    | some _ => .ok (fsErase fs p)
    | none => .error .removeNotFound

/-- What a guard drop did: nothing, a removal, a panic, or a printed
message because the thread was already panicking. -/
inductive DropOutcome
  | noAction
  | removed
  | panicked
  | printedWarning
deriving DecidableEq

/-- The blocking scoped-removal guard of lib.rs. -/
structure DropRemovePathBlocking where
  path : String
  should_remove : Bool
deriving DecidableEq

namespace DropRemovePathBlocking

/-- DropRemovePathBlocking::new: records the path, removal on. -/
def new (path : String) : DropRemovePathBlocking := ⟨path, true⟩

/-- DropRemovePathBlocking::persist: flips should_remove off. No I/O. -/
def persist (g : DropRemovePathBlocking) : DropRemovePathBlocking :=
  { g with should_remove := false }

/-- DropRemovePathBlocking::try_drop: removes the file when should_remove
is set; on removal failure returns the error together with the guard. -/
def try_drop (w : World) (fs : FS) (g : DropRemovePathBlocking) :
    Except (DropRemovePathBlocking × Err) Bool × FS :=
  if g.should_remove then
    match removeFile w fs g.path with
    | .ok fsNew => (.ok true, fsNew)
    | .error e => (.error (g, e), fs)
  else (.ok false, fs)

/-- The Drop impl of DropRemovePathBlocking: best-effort removal when
should_remove is set; a removal failure panics, or prints the message
when the thread is already panicking. -/
def dropRun (w : World) (fs : FS) (panicking : Bool) (g : DropRemovePathBlocking) :
    FS × DropOutcome :=
  if g.should_remove then
    match removeFile w fs g.path with
    | .ok fsNew => (fsNew, .removed)
    | .error _ => (fs, if panicking then .printedWarning else .panicked)
  else (fs, .noAction)

end DropRemovePathBlocking

/-- The asynchronous scoped-removal guard of drop_remove_path.rs. -/
structure DropRemovePath where
  path : String
  should_remove : Bool
deriving DecidableEq

namespace DropRemovePath

/-- DropRemovePath::new: records the path, removal on. -/
def new (path : String) : DropRemovePath := ⟨path, true⟩

/-- DropRemovePath::persist: flips should_remove off. No I/O. -/
def persist (g : DropRemovePath) : DropRemovePath :=
  { g with should_remove := false }

/-- DropRemovePath::try_drop: same shape as the blocking guard, with
tokio remove_file in place of std remove_file. -/
def try_drop (w : World) (fs : FS) (g : DropRemovePath) :
    Except (DropRemovePath × Err) Bool × FS :=
  if g.should_remove then
    match removeFile w fs g.path with
    | .ok fsNew => (.ok true, fsNew)
    | .error e => (.error (g, e), fs)
  else (.ok false, fs)

/-- The body of the detached task spawned by the Drop impl of
DropRemovePath: best-effort removal when should_remove is set; a removal
failure panics inside the task, or prints the message when already
panicking. -/
def dropSpawnedTask (w : World) (fs : FS) (panicking : Bool) (g : DropRemovePath) :
    FS × DropOutcome :=
  if g.should_remove then
    match removeFile w fs g.path with
    | .ok fsNew => (fsNew, .removed)
    | .error _ => (fs, if panicking then .printedWarning else .panicked)
  else (fs, .noAction)

end DropRemovePath

/-- Model of Path::with_added_extension for paths that have a file name:
a nonempty extension is appended after a dot, never replacing an existing
extension; an empty extension leaves the path unchanged. -/
def with_added_extension (path ext : String) : String :=
  if ext = "" then path else path ++ ("." ++ ext)

/-- The temporary path the downloader computes at line 17 of
download_to_path.rs: the destination path with an added part extension. -/
def temporaryPath (dest : String) : String := with_added_extension dest "part"

/-- Opening the temporary file with the locking-aware creation mode of
download_to_path_blocking. The source sets write and create (locking
platform) or write and create_new (otherwise) and never sets truncate,
so an existing file keeps its stale contents and the cursor starts at
position zero; create_new fails when the file already exists. -/
def openTemporaryFile (w : World) (fs : FS) (temp : String) : Except Err FS :=
  if w.lockingSupported then
    if w.openFails then .error .openFailed else .ok (fsCreateKeep fs temp)
  else
    match fs temp with
    | some _ => .error .openFailed
    | none => if w.openFails then .error .openFailed else .ok (fsCreateKeep fs temp)

/-- Model of std rename: atomically moves the file at src onto dst,
replacing any file at dst. -/
def renameFile (w : World) (fs : FS) (src dst : String) : Except Err FS :=
  if w.renameFails then .error .renameFailed
  else
    match fs src with
    | some b => .ok (fun q => if q = dst then some b else if q = src then none else fs q)
    | none => .error .renameFailed

/-- Ghost events recording the order of the observable operations of one
downloader run. -/
inductive Event
  | openTemp
  | lock
  | requestSent
  | wroteChunk (i : Nat)
  | flush
  | sync
  | rename
  | unlock
  | closeHandle
  | guardPersist
  | guardTryDrop
  | warnCleanup
deriving DecidableEq

/-- The chunk loop of download_to_path_blocking: read each chunk and
write it to the temporary file at the current cursor position (the file
is opened without truncation, so writes overwrite any stale bytes in
place and a stale tail beyond the written length survives). Reading may
fail after the delivered chunks and the write of chunk i fails when the
world says so. Returns the result, the file system after the writes
that happened, and the write events. -/
def streamLoop (writeFailAt : Option Nat) (temp : String) (streamError : Bool) :
    Nat → Nat → List (List Byte) → FS → Except Err Unit × FS × List Event
  | _, _, [], fs => ((if streamError then .error .chunkFailed else .ok ()), fs, [])
  | i, pos, c :: rest, fs =>
    if writeFailAt = some i then (.error .writeFailed, fs, [])
    else
      let r := streamLoop writeFailAt temp streamError (i + 1) (pos + c.length) rest
        (writeTemp fs temp pos c)
      (r.1, r.2.1, .wroteChunk i :: r.2.2)

/-- The download closure of download_to_path_blocking, lines 57 to 84:
request, status check, chunk loop, flush, sync, rename. Note the closure
performs no content-length verification. -/
def downloadClosure (w : World) (fs : FS) (temp dest : String) :
    Except Err Unit × FS × List Event :=
  match w.response with
  | none => (.error .requestFailed, fs, [.requestSent])
  | some r =>
    if error_for_status r.status then (.error (.badStatus r.status), fs, [.requestSent])
    else
      match streamLoop w.writeFailAt temp r.streamError 0 0 r.chunks fs with
      | (.error e, fsMid, tr) => (.error e, fsMid, .requestSent :: tr)
      | (.ok (), fsMid, tr) =>
        if w.flushFails then (.error .flushFailed, fsMid, .requestSent :: tr)
        else if w.syncFails then (.error .syncFailed, fsMid, .requestSent :: (tr ++ [.flush]))
        else
          match renameFile w fsMid temp dest with
          | .error e => (.error e, fsMid, .requestSent :: (tr ++ [.flush, .sync]))
          | .ok fsNew => (.ok (), fsNew, .requestSent :: (tr ++ [.flush, .sync, .rename]))

/-- The lock event of a run, present only on a locking platform. -/
def lockTrace (w : World) : List Event :=
  if w.lockingSupported then [.lock] else []

/-- The unlock event of a run, present only on a locking platform. -/
def unlockTrace (w : World) : List Event :=
  if w.lockingSupported then [.unlock] else []

/-- The observable outcome of one run of download_to_path_blocking: the
returned result, the final file system, the event trace, the final state
of the temporary-path guard at its drop point (none when the guard was
consumed by a successful try_drop), and what that final drop did. -/
structure RunResult where
  result : Except Err Unit
  fs : FS
  trace : List Event
  guard : Option DropRemovePathBlocking
  dropOutcome : Option DropOutcome

/-- download_to_path_blocking, lines 10 to 112 of download_to_path.rs.
The guard is created right after the temporary file is opened. A try_lock
failure and an unlock failure both return early, dropping the guard with
should_remove still set. Otherwise the closure runs, the file is unlocked
and closed, and the guard is persisted on success or finalized by
try_drop on failure; when try_drop fails the returned guard is persisted
and the cleanup error is only logged. -/
def download_to_path_blocking (w : World) (fs0 : FS) (dest : String) : RunResult :=
  let temp := temporaryPath dest
  match openTemporaryFile w fs0 temp with
  | .error e => ⟨.error e, fs0, [], none, none⟩
  | .ok fs1 =>
    let g := DropRemovePathBlocking.new temp
    if w.lockingSupported && w.tempLocked then
      let d := DropRemovePathBlocking.dropRun w fs1 false g
      ⟨.error .lockFailed, d.1, [.openTemp], some g, some d.2⟩
    else
      match downloadClosure w fs1 temp dest with
      | (res, fs2, tr) =>
        if w.lockingSupported && w.unlockFails then
          let d := DropRemovePathBlocking.dropRun w fs2 false g
          ⟨.error .unlockFailed, d.1, .openTemp :: (lockTrace w ++ (tr ++ [.unlock])),
            some g, some d.2⟩
        else
          let baseTr : List Event :=
            .openTemp :: (lockTrace w ++ (tr ++ (unlockTrace w ++ [.closeHandle])))
          match res with
          | .ok () =>
            let gP := g.persist
            let d := DropRemovePathBlocking.dropRun w fs2 false gP
            ⟨.ok (), fs2, baseTr ++ [.guardPersist], some gP, some d.2⟩
          | .error e =>
            match DropRemovePathBlocking.try_drop w fs2 g with
            | (.ok _, fs3) => ⟨.error e, fs3, baseTr ++ [.guardTryDrop], none, none⟩
            | (.error (gBack, _), fs3) =>
              let gP := gBack.persist
              let d := DropRemovePathBlocking.dropRun w fs3 false gP
              ⟨.error e, fs3, baseTr ++ [.guardTryDrop, .warnCleanup], some gP, some d.2⟩

/-- A file handle: contents and a write cursor. -/
structure File where
  data : List Byte
  pos : Nat
deriving DecidableEq

/-- File set_len: truncate or zero-extend the contents to a length,
leaving the cursor alone. -/
def File.set_len (f : File) (n : Nat) : File :=
  { f with data := f.data.take n ++ List.replicate (n - f.data.length) 0 }

/-- write_all at the cursor, overwriting existing bytes and extending at
the end. -/
def File.write_all (f : File) (c : List Byte) : File :=
  { data := f.data.take f.pos ++ c ++ f.data.drop (f.pos + c.length),
    pos := f.pos + c.length }

/-- The chunk loop of download_to_file: write each chunk and accumulate
the actual streamed length. -/
def downloadToFileLoop (writeFailAt : Option Nat) (streamError : Bool) :
    Nat → List (List Byte) → File → Nat → Except Err (File × Nat)
  | _, [], f, acc => if streamError then .error .chunkFailed else .ok (f, acc)
  | i, c :: rest, f, acc =>
    if writeFailAt = some i then .error .writeFailed
    else downloadToFileLoop writeFailAt streamError (i + 1) rest (f.write_all c) (acc + c.length)

/-- download_to_file, download_to_file.rs: request, status check,
pre-allocation to the declared content length when present, chunk loop,
content-length verification, flush and sync. -/
def download_to_file (w : World) (file : File) : Except Err File :=
  match w.response with
  | none => .error .requestFailed
  | some r =>
    if error_for_status r.status then .error (.badStatus r.status)
    else
      let pre : Except Err File :=
        match r.content_length with
        | some n => if w.setLenFails then .error .preallocateFailed else .ok (file.set_len n)
        | none => .ok file
      match pre with
      | .error e => .error e
      | .ok f1 =>
        match downloadToFileLoop w.writeFailAt r.streamError 0 r.chunks f1 0 with
        | .error e => .error e
        | .ok (f2, actual_length) =>
          match r.content_length with
          | some n =>
            if n = actual_length then
              if w.flushFails then .error .flushFailed
              else if w.syncFails then .error .syncFailed
              else .ok f2
            else .error (.lengthMismatch n actual_length)
          | none =>
            if w.flushFails then .error .flushFailed
            else if w.syncFails then .error .syncFailed
            else .ok f2

/-- No rename event strictly after any occurrence of the marker event in
a trace. -/
def noRenameAfter (marker : Event) : List Event → Prop
  | [] => True
  | x :: rest => (x = marker → Event.rename ∉ rest) ∧ noRenameAfter marker rest

/-- The base trace of a run that got past the unlock: open, optional
lock, the closure events, optional unlock, close. -/
def baseTrace (w : World) (tr : List Event) : List Event :=
  .openTemp :: (lockTrace w ++ (tr ++ (unlockTrace w ++ [.closeHandle])))

/-!
Concrete worlds and file systems used by the witnesses and
counterexamples.
-/

/-- A quiet world: locking supported, every operation succeeds, no
response configured. -/
def witWorld : World :=
  ⟨true, false, false, none, none, false, false, false, false, false, false⟩

/-- A world where the advisory lock on the temporary file is already
held by a concurrent downloader. -/
def lockedWorld : World :=
  ⟨true, false, true, none, none, false, false, false, false, false, false⟩

/-- A world on a platform without advisory locking, all operations
succeeding. -/
def noLockWorld : World :=
  ⟨false, false, false, none, none, false, false, false, false, false, false⟩

/-- A file system holding one file at path p. -/
def fsOneP : FS := fsSet fsEmpty "p" [1]

/-- A file system holding a stale temporary file for destination d. -/
def fsStale : FS := fsSet fsEmpty (temporaryPath "d") [7]

/-- A world whose response declares content length 5 but streams only
the three bytes 1, 2, 3, every operation succeeding. -/
def mismatchWorld : World :=
  ⟨true, false, false, some ⟨200, some 5, [[1, 2, 3]], false⟩,
   none, false, false, false, false, false, false⟩

/-- A world where the server answers status 404 and the later unlock of
the temporary file handle fails. -/
def badStatusUnlockWorld : World :=
  ⟨true, false, false, some ⟨404, none, [], false⟩,
   none, false, false, false, true, false, false⟩

/-- A world where the download succeeds up to and including the rename
and then the unlock of the temporary file handle fails. -/
def renameThenUnlockFailWorld : World :=
  ⟨true, false, false, some ⟨200, none, [[1, 2]], false⟩,
   none, false, false, false, true, false, false⟩

/-- A file system holding previous content 9 at destination d. -/
def fsDest9 : FS := fsSet fsEmpty "d" [9]

/-- A world where the server answers status 404 and the cleanup removal
of the temporary file fails. -/
def cleanupFailWorld : World :=
  ⟨true, false, false, some ⟨404, none, [], false⟩,
   none, false, false, false, false, true, false⟩

/-- A world where the server answers status 404 and everything local
succeeds. -/
def notFoundWorld : World :=
  ⟨true, false, false, some ⟨404, none, [], false⟩,
   none, false, false, false, false, false, false⟩

/-- A world on a locking platform where the download of the two bytes
1, 2 succeeds completely. -/
def staleWorld : World :=
  ⟨true, false, false, some ⟨200, none, [[1, 2]], false⟩,
   none, false, false, false, false, false, false⟩

/-- A file system holding a four-byte stale temporary file for
destination d. -/
def fsStale4 : FS := fsSet fsEmpty (temporaryPath "d") [7, 7, 7, 7]

/-- A world where the advisory lock is already held and the cleanup
removal of the temporary file fails. -/
def lockedCleanupFailWorld : World :=
  ⟨true, false, true, none, none, false, false, false, false, true, false⟩


/-!
Basic lemmas about the path computation, the filesystem primitives and
the guards.
-/

theorem temporaryPath_eq (dest : String) : temporaryPath dest = dest ++ ".part" := by
  unfold temporaryPath with_added_extension
  rw [if_neg (by decide)]
  rw [show ("." ++ "part" : String) = ".part" from by decide]

theorem temporaryPath_ne (dest : String) : temporaryPath dest ≠ dest := by
  rw [temporaryPath_eq]
  intro h
  have h2 := congrArg String.length h
  rw [String.length_append] at h2
  have h5 : (".part" : String).length = 5 := by decide
  rw [h5] at h2
  omega

theorem fsSet_self (fs : FS) (p : String) (b : List Byte) : fsSet fs p b p = some b := by
  simp [fsSet]

theorem fsSet_ne (fs : FS) (p q : String) (b : List Byte) (h : q ≠ p) :
    fsSet fs p b q = fs q := by
  simp [fsSet, h]

theorem fsErase_self (fs : FS) (p : String) : fsErase fs p p = none := by
  simp [fsErase]

theorem fsErase_ne (fs : FS) (p q : String) (h : q ≠ p) : fsErase fs p q = fs q := by
  simp [fsErase, h]

theorem removeFile_ok (w : World) (fs fs2 : FS) (p : String)
    (h : removeFile w fs p = .ok fs2) : fs2 = fsErase fs p := by
  unfold removeFile at h
  split at h
  · exact absurd h (by simp)
  · split at h
    · injection h with h2
      exact h2.symm
    · exact absurd h (by simp)

theorem removeFile_error_not_found (w : World) (fs : FS) (p : String) (e : Err)
    (hrf : w.removeFails = false) (h : removeFile w fs p = .error e) : fs p = none := by
  unfold removeFile at h
  rw [hrf] at h
  simp only [Bool.false_eq_true, if_false] at h
  split at h
  · exact absurd h (by simp)
  next heq => exact heq

theorem dropRun_removes (w : World) (fs : FS) (pk : Bool) (g : DropRemovePathBlocking)
    (hg : g.should_remove = true) (hrf : w.removeFails = false) :
    (DropRemovePathBlocking.dropRun w fs pk g).1 g.path = none := by
  unfold DropRemovePathBlocking.dropRun
  rw [hg]
  simp only [if_true]
  cases hr : removeFile w fs g.path with
  | ok fsNew =>
    rw [removeFile_ok w fs fsNew g.path hr]
    exact fsErase_self fs g.path
  | error e =>
    exact removeFile_error_not_found w fs g.path e hrf hr

theorem dropRun_frame (w : World) (fs : FS) (pk : Bool) (g : DropRemovePathBlocking)
    (q : String) (hq : q ≠ g.path) :
    (DropRemovePathBlocking.dropRun w fs pk g).1 q = fs q := by
  unfold DropRemovePathBlocking.dropRun
  split
  · cases hr : removeFile w fs g.path with
    | ok fsNew =>
      rw [removeFile_ok w fs fsNew g.path hr]
      exact fsErase_ne fs g.path q hq
    | error e => rfl
  · rfl

theorem try_drop_removes (w : World) (fs : FS) (g : DropRemovePathBlocking)
    (hg : g.should_remove = true) (hrf : w.removeFails = false) :
    (DropRemovePathBlocking.try_drop w fs g).2 g.path = none := by
  unfold DropRemovePathBlocking.try_drop
  rw [hg]
  simp only [if_true]
  cases hr : removeFile w fs g.path with
  | ok fsNew =>
    rw [removeFile_ok w fs fsNew g.path hr]
    exact fsErase_self fs g.path
  | error e =>
    exact removeFile_error_not_found w fs g.path e hrf hr

theorem try_drop_frame (w : World) (fs : FS) (g : DropRemovePathBlocking)
    (q : String) (hq : q ≠ g.path) :
    (DropRemovePathBlocking.try_drop w fs g).2 q = fs q := by
  unfold DropRemovePathBlocking.try_drop
  split
  · cases hr : removeFile w fs g.path with
    | ok fsNew =>
      rw [removeFile_ok w fs fsNew g.path hr]
      exact fsErase_ne fs g.path q hq
    | error e => rfl
  · rfl

theorem try_drop_error_inv (w : World) (fs fs3 : FS) (g gB : DropRemovePathBlocking)
    (e : Err) (h : DropRemovePathBlocking.try_drop w fs g = (.error (gB, e), fs3)) :
    gB = g ∧ fs3 = fs := by
  unfold DropRemovePathBlocking.try_drop at h
  split at h
  · split at h
    · exact absurd h (by simp)
    · rw [Prod.mk.injEq] at h
      obtain ⟨h1, h2⟩ := h
      injection h1 with h1
      rw [Prod.mk.injEq] at h1
      exact ⟨h1.1.symm, h2.symm⟩
  · exact absurd h (by simp)

theorem fsCreateKeep_ne (fs : FS) (p q : String) (h : q ≠ p) :
    fsCreateKeep fs p q = fs q := by
  simp [fsCreateKeep, h]

theorem writeTemp_ne (fs : FS) (temp : String) (pos : Nat) (c : List Byte)
    (q : String) (h : q ≠ temp) : writeTemp fs temp pos c q = fs q := by
  simp [writeTemp, h]

theorem openTemporaryFile_ok (w : World) (fs0 fs1 : FS) (temp : String)
    (h : openTemporaryFile w fs0 temp = .ok fs1) : fs1 = fsCreateKeep fs0 temp := by
  unfold openTemporaryFile at h
  split at h
  · split at h
    · exact absurd h (by simp)
    · injection h with h2
      exact h2.symm
  · split at h
    · exact absurd h (by simp)
    · split at h
      · exact absurd h (by simp)
      · injection h with h2
        exact h2.symm

theorem renameFile_ok (w : World) (fs fs2 : FS) (src dst : String)
    (h : renameFile w fs src dst = .ok fs2) :
    ∃ b, fs src = some b ∧
      fs2 = fun q => if q = dst then some b else if q = src then none else fs q := by
  unfold renameFile at h
  split at h
  · exact absurd h (by simp)
  · split at h
    next b heq =>
      refine ⟨b, heq, ?_⟩
      injection h with h2
      exact h2.symm
    · exact absurd h (by simp)

/-!
Lemmas about the chunk loop and the download closure.
-/

theorem streamLoop_frame (wf : Option Nat) (temp : String) (se : Bool) (q : String)
    (hq : q ≠ temp) (chunks : List (List Byte)) :
    ∀ i pos fs, (streamLoop wf temp se i pos chunks fs).2.1 q = fs q := by
  induction chunks with
  | nil => intro i pos fs; rfl
  | cons c rest ih =>
    intro i pos fs
    simp only [streamLoop]
    split
    · rfl
    · exact (ih (i + 1) (pos + c.length) (writeTemp fs temp pos c)).trans
        (writeTemp_ne fs temp pos c q hq)

theorem streamLoop_trace_mem (wf : Option Nat) (temp : String) (se : Bool)
    (chunks : List (List Byte)) :
    ∀ i pos fs x, x ∈ (streamLoop wf temp se i pos chunks fs).2.2 →
      ∃ j, x = .wroteChunk j := by
  induction chunks with
  | nil =>
    intro i pos fs x hx
    simp [streamLoop] at hx
  | cons c rest ih =>
    intro i pos fs x hx
    simp only [streamLoop] at hx
    split at hx
    · simp at hx
    · change x ∈ Event.wroteChunk i ::
        (streamLoop wf temp se (i + 1) (pos + c.length) rest
          (writeTemp fs temp pos c)).2.2 at hx
      rcases List.mem_cons.mp hx with h | h
      · exact ⟨i, h⟩
      · exact ih (i + 1) (pos + c.length) (writeTemp fs temp pos c) x h

theorem downloadClosure_trace_mem (w : World) (fs : FS) (temp dest : String) (x : Event)
    (hx : x ∈ (downloadClosure w fs temp dest).2.2) :
    x = .requestSent ∨ (∃ j, x = .wroteChunk j) ∨ x = .flush ∨ x = .sync ∨ x = .rename := by
  unfold downloadClosure at hx
  split at hx
  · simp at hx
    exact Or.inl hx
  next r hresp =>
    split at hx
    · simp at hx
      exact Or.inl hx
    · split at hx
      next e fsMid tr heq =>
        rcases List.mem_cons.mp hx with h | h
        · exact Or.inl h
        · have htr : tr = (streamLoop w.writeFailAt temp r.streamError 0 0 r.chunks fs).2.2 := by
            rw [heq]
          rw [htr] at h
          exact Or.inr (Or.inl (streamLoop_trace_mem _ _ _ _ _ _ _ _ h))
      next fsMid tr heq =>
        have htr : tr = (streamLoop w.writeFailAt temp r.streamError 0 0 r.chunks fs).2.2 := by
          rw [heq]
        split at hx
        · rcases List.mem_cons.mp hx with h | h
          · exact Or.inl h
          · rw [htr] at h
            exact Or.inr (Or.inl (streamLoop_trace_mem _ _ _ _ _ _ _ _ h))
        · split at hx
          · rcases List.mem_cons.mp hx with h | h
            · exact Or.inl h
            · rcases List.mem_append.mp h with h2 | h2
              · rw [htr] at h2
                exact Or.inr (Or.inl (streamLoop_trace_mem _ _ _ _ _ _ _ _ h2))
              · simp at h2
                exact Or.inr (Or.inr (Or.inl h2))
          · split at hx
            · rcases List.mem_cons.mp hx with h | h
              · exact Or.inl h
              · rcases List.mem_append.mp h with h2 | h2
                · rw [htr] at h2
                  exact Or.inr (Or.inl (streamLoop_trace_mem _ _ _ _ _ _ _ _ h2))
                · simp at h2
                  rcases h2 with h2 | h2
                  · exact Or.inr (Or.inr (Or.inl h2))
                  · exact Or.inr (Or.inr (Or.inr (Or.inl h2)))
            · rcases List.mem_cons.mp hx with h | h
              · exact Or.inl h
              · rcases List.mem_append.mp h with h2 | h2
                · rw [htr] at h2
                  exact Or.inr (Or.inl (streamLoop_trace_mem _ _ _ _ _ _ _ _ h2))
                · simp at h2
                  rcases h2 with h2 | h2 | h2
                  · exact Or.inr (Or.inr (Or.inl h2))
                  · exact Or.inr (Or.inr (Or.inr (Or.inl h2)))
                  · exact Or.inr (Or.inr (Or.inr (Or.inr h2)))

theorem downloadClosure_no_unlock (w : World) (fs : FS) (temp dest : String) :
    Event.unlock ∉ (downloadClosure w fs temp dest).2.2 := by
  intro h
  rcases downloadClosure_trace_mem w fs temp dest .unlock h with h1 | ⟨j, h1⟩ | h1 | h1 | h1 <;>
    simp at h1

theorem downloadClosure_no_closeHandle (w : World) (fs : FS) (temp dest : String) :
    Event.closeHandle ∉ (downloadClosure w fs temp dest).2.2 := by
  intro h
  rcases downloadClosure_trace_mem w fs temp dest .closeHandle h with h1 | ⟨j, h1⟩ | h1 | h1 | h1 <;>
    simp at h1

theorem downloadClosure_cases (w : World) (fs : FS) (temp dest : String) :
    (∃ e, (downloadClosure w fs temp dest).1 = .error e ∧
       (∀ q, q ≠ temp → (downloadClosure w fs temp dest).2.1 q = fs q) ∧
       Event.rename ∉ (downloadClosure w fs temp dest).2.2) ∨
    ((downloadClosure w fs temp dest).1 = .ok () ∧
       Event.rename ∈ (downloadClosure w fs temp dest).2.2 ∧
       (temp ≠ dest → (downloadClosure w fs temp dest).2.1 temp = none) ∧
       (∀ q, q ≠ temp → q ≠ dest →
          (downloadClosure w fs temp dest).2.1 q = fs q)) := by
  unfold downloadClosure
  split
  · exact Or.inl ⟨.requestFailed, rfl, fun q hq => rfl, by simp⟩
  next r hresp =>
    split
    next hst =>
      exact Or.inl ⟨_, rfl, fun q hq => rfl, by simp⟩
    next hst =>
      split
      next e fsMid tr heq =>
        refine Or.inl ⟨e, rfl, ?_, ?_⟩
        · intro q hq
          have h1 := streamLoop_frame w.writeFailAt temp r.streamError q hq r.chunks 0 0 fs
          rw [heq] at h1
          exact h1
        · intro hmem
          rcases List.mem_cons.mp hmem with h | h
          · simp at h
          · have htr : tr =
                (streamLoop w.writeFailAt temp r.streamError 0 0 r.chunks fs).2.2 := by
              rw [heq]
            rw [htr] at h
            obtain ⟨j, hj⟩ := streamLoop_trace_mem _ _ _ _ _ _ _ _ h
            simp at hj
      next fsMid tr heq =>
        have hfsMid : (streamLoop w.writeFailAt temp r.streamError 0 0 r.chunks fs).2.1 =
            fsMid := by
          rw [heq]
        have htr : tr = (streamLoop w.writeFailAt temp r.streamError 0 0 r.chunks fs).2.2 := by
          rw [heq]
        have hfr : ∀ q, q ≠ temp → fsMid q = fs q := by
          intro q hq
          rw [← hfsMid]
          exact streamLoop_frame w.writeFailAt temp r.streamError q hq r.chunks 0 0 fs
        have hnot_tr : Event.rename ∉ tr := by
          intro h
          rw [htr] at h
          obtain ⟨j, hj⟩ := streamLoop_trace_mem _ _ _ _ _ _ _ _ h
          simp at hj
        split
        next hfl =>
          refine Or.inl ⟨.flushFailed, rfl, hfr, ?_⟩
          intro hmem
          rcases List.mem_cons.mp hmem with h | h
          · simp at h
          · exact hnot_tr h
        next hfl =>
          split
          next hsy =>
            refine Or.inl ⟨.syncFailed, rfl, hfr, ?_⟩
            intro hmem
            rcases List.mem_cons.mp hmem with h | h
            · simp at h
            · rcases List.mem_append.mp h with h2 | h2
              · exact hnot_tr h2
              · simp at h2
          next hsy =>
            split
            next e hren =>
              refine Or.inl ⟨e, rfl, hfr, ?_⟩
              intro hmem
              rcases List.mem_cons.mp hmem with h | h
              · simp at h
              · rcases List.mem_append.mp h with h2 | h2
                · exact hnot_tr h2
                · simp at h2
            next fsNew hren =>
              refine Or.inr ⟨rfl, ?_, ?_, ?_⟩
              · simp [List.mem_cons, List.mem_append]
              · intro hne
                obtain ⟨bb, hbb, hfsNew⟩ := renameFile_ok w fsMid fsNew temp dest hren
                rw [hfsNew]
                simp [hne]
              · intro q hq1 hq2
                obtain ⟨bb, hbb, hfsNew⟩ := renameFile_ok w fsMid fsNew temp dest hren
                rw [hfsNew]
                have h3 : (if q = dest then some bb else if q = temp then none else fsMid q) =
                    fsMid q := by rw [if_neg hq2, if_neg hq1]
                exact h3.trans (hfr q hq1)

theorem noRenameAfter_of_no_rename (m : Event) (t : List Event)
    (h : Event.rename ∉ t) : noRenameAfter m t := by
  induction t with
  | nil => trivial
  | cons x rest ih =>
    refine ⟨fun _ => fun hr => h (List.mem_cons_of_mem _ hr),
      ih fun hr => h (List.mem_cons_of_mem _ hr)⟩

theorem noRenameAfter_of_no_marker (m : Event) (t : List Event)
    (h : m ∉ t) : noRenameAfter m t := by
  induction t with
  | nil => trivial
  | cons x rest ih =>
    refine ⟨?_, ih fun h2 => h (List.mem_cons_of_mem _ h2)⟩
    intro hx
    subst hx
    exact absurd (List.mem_cons_self _ _) h

theorem noRenameAfter_append (m : Event) (A B : List Event)
    (hA : m ∉ A) (hB : noRenameAfter m B) : noRenameAfter m (A ++ B) := by
  induction A with
  | nil => simpa using hB
  | cons x A ih =>
    rw [List.cons_append]
    refine ⟨?_, ih fun h2 => hA (List.mem_cons_of_mem _ h2)⟩
    intro hx
    subst hx
    exact absurd (List.mem_cons_self _ _) hA

theorem try_drop_ok_inv (w : World) (fs fs3 : FS) (g : DropRemovePathBlocking) (b : Bool)
    (hg : g.should_remove = true)
    (h : DropRemovePathBlocking.try_drop w fs g = (.ok b, fs3)) :
    b = true ∧ fs3 = fsErase fs g.path := by
  unfold DropRemovePathBlocking.try_drop at h
  rw [hg] at h
  cases hr : removeFile w fs g.path with
  | ok fsNew =>
    rw [hr] at h
    simp only [if_true] at h
    rw [Prod.mk.injEq] at h
    obtain ⟨h1, h2⟩ := h
    injection h1 with h1
    refine ⟨h1.symm, ?_⟩
    rw [← h2]
    exact removeFile_ok w fs fsNew g.path hr
  | error e2 =>
    rw [hr] at h
    simp only [if_true] at h
    rw [Prod.mk.injEq] at h
    exact absurd h.1 (by simp)

/-- Exhaustive case analysis of one run of download_to_path_blocking:
open failure; lock-acquisition failure; unlock failure after the closure;
closure success followed by persist; closure failure with successful
try_drop cleanup; closure failure with failed cleanup, the guard
persisted. -/
theorem run_cases (w : World) (fs0 : FS) (dest : String) :
    (∃ e, openTemporaryFile w fs0 (temporaryPath dest) = .error e ∧
       download_to_path_blocking w fs0 dest = ⟨.error e, fs0, [], none, none⟩) ∨
    (∃ fs1, openTemporaryFile w fs0 (temporaryPath dest) = .ok fs1 ∧
      (((w.lockingSupported && w.tempLocked) = true ∧
         download_to_path_blocking w fs0 dest =
           ⟨.error .lockFailed,
            (DropRemovePathBlocking.dropRun w fs1 false
              (DropRemovePathBlocking.new (temporaryPath dest))).1,
            [.openTemp],
            some (DropRemovePathBlocking.new (temporaryPath dest)),
            some (DropRemovePathBlocking.dropRun w fs1 false
              (DropRemovePathBlocking.new (temporaryPath dest))).2⟩) ∨
       ((w.lockingSupported && w.tempLocked) = false ∧
        ∃ res fs2 tr, downloadClosure w fs1 (temporaryPath dest) dest = (res, fs2, tr) ∧
         (((w.lockingSupported && w.unlockFails) = true ∧
            download_to_path_blocking w fs0 dest =
              ⟨.error .unlockFailed,
               (DropRemovePathBlocking.dropRun w fs2 false
                 (DropRemovePathBlocking.new (temporaryPath dest))).1,
               .openTemp :: (lockTrace w ++ (tr ++ [.unlock])),
               some (DropRemovePathBlocking.new (temporaryPath dest)),
               some (DropRemovePathBlocking.dropRun w fs2 false
                 (DropRemovePathBlocking.new (temporaryPath dest))).2⟩) ∨
          ((w.lockingSupported && w.unlockFails) = false ∧
           ((res = .ok () ∧
              download_to_path_blocking w fs0 dest =
                ⟨.ok (), fs2, baseTrace w tr ++ [.guardPersist],
                 some ⟨temporaryPath dest, false⟩, some .noAction⟩) ∨
            (∃ e, res = .error e ∧
              ((∃ fs3, DropRemovePathBlocking.try_drop w fs2
                   (DropRemovePathBlocking.new (temporaryPath dest)) = (.ok true, fs3) ∧
                 fs3 = fsErase fs2 (temporaryPath dest) ∧
                 download_to_path_blocking w fs0 dest =
                   ⟨.error e, fs3, baseTrace w tr ++ [.guardTryDrop], none, none⟩) ∨
               (∃ e2, DropRemovePathBlocking.try_drop w fs2
                   (DropRemovePathBlocking.new (temporaryPath dest)) =
                     (.error (DropRemovePathBlocking.new (temporaryPath dest), e2), fs2) ∧
                 download_to_path_blocking w fs0 dest =
                   ⟨.error e, fs2, baseTrace w tr ++ [.guardTryDrop, .warnCleanup],
                    some ⟨temporaryPath dest, false⟩, some .noAction⟩))))))))) := by
  cases ho : openTemporaryFile w fs0 (temporaryPath dest) with
  | error e =>
    refine Or.inl ⟨e, rfl, ?_⟩
    simp only [download_to_path_blocking, ho]
  | ok fs1 =>
    refine Or.inr ⟨fs1, rfl, ?_⟩
    cases hlk : w.lockingSupported && w.tempLocked with
    | true =>
      refine Or.inl ⟨rfl, ?_⟩
      simp only [download_to_path_blocking, ho, hlk, if_true]
    | false =>
      refine Or.inr ⟨rfl, ?_⟩
      rcases hcl : downloadClosure w fs1 (temporaryPath dest) dest with ⟨res, fs2, tr⟩
      refine ⟨res, fs2, tr, rfl, ?_⟩
      cases hul : w.lockingSupported && w.unlockFails with
      | true =>
        refine Or.inl ⟨rfl, ?_⟩
        simp only [download_to_path_blocking, ho, hlk, hul, hcl, Bool.false_eq_true,
          if_false, if_true]
      | false =>
        refine Or.inr ⟨rfl, ?_⟩
        cases res with
        | ok u =>
          cases u
          refine Or.inl ⟨rfl, ?_⟩
          simp only [download_to_path_blocking, ho, hlk, hul, hcl, Bool.false_eq_true,
            if_false, baseTrace]
          rfl
        | error e =>
          refine Or.inr ⟨e, rfl, ?_⟩
          rcases htd : DropRemovePathBlocking.try_drop w fs2
              (DropRemovePathBlocking.new (temporaryPath dest)) with ⟨r3, fs3⟩
          cases r3 with
          | ok b =>
            obtain ⟨hb, hfs3⟩ := try_drop_ok_inv w fs2 fs3
              (DropRemovePathBlocking.new (temporaryPath dest)) b rfl htd
            subst hb
            refine Or.inl ⟨fs3, rfl, hfs3, ?_⟩
            simp only [download_to_path_blocking, ho, hlk, hul, hcl, htd,
              Bool.false_eq_true, if_false, baseTrace]
          | error ge =>
            rcases ge with ⟨gBack, e2⟩
            obtain ⟨hgb, hfs3⟩ := try_drop_error_inv w fs2 fs3
              (DropRemovePathBlocking.new (temporaryPath dest)) gBack e2 htd
            subst hgb
            subst hfs3
            refine Or.inr ⟨e2, rfl, ?_⟩
            simp only [download_to_path_blocking, ho, hlk, hul, hcl, htd,
              Bool.false_eq_true, if_false, baseTrace]
            rfl

theorem openTemporaryFile_error (w : World) (fs : FS) (temp : String) (e : Err)
    (h : openTemporaryFile w fs temp = .error e) : e = .openFailed := by
  unfold openTemporaryFile at h
  split at h
  · split at h
    · injection h with h
      exact h.symm
    · exact absurd h (by simp)
  · split at h
    · injection h with h
      exact h.symm
    · split at h
      · injection h with h
        exact h.symm
      · exact absurd h (by simp)

theorem try_drop_error_removeFile (w : World) (fs fs3 : FS) (g gB : DropRemovePathBlocking)
    (e : Err) (hg : g.should_remove = true)
    (h : DropRemovePathBlocking.try_drop w fs g = (.error (gB, e), fs3)) :
    removeFile w fs g.path = .error e := by
  unfold DropRemovePathBlocking.try_drop at h
  rw [hg] at h
  cases hr : removeFile w fs g.path with
  | ok fsNew =>
    rw [hr] at h
    simp at h
  | error e2 =>
    rw [hr] at h
    simp only [if_true] at h
    rw [Prod.mk.injEq] at h
    obtain ⟨h1, h2⟩ := h
    injection h1 with h1
    rw [Prod.mk.injEq] at h1
    rw [h1.2]

theorem lockTrace_mem (w : World) (x : Event) (h : x ∈ lockTrace w) : x = .lock := by
  unfold lockTrace at h
  split at h
  · simpa using h
  · simp at h

theorem unlockTrace_mem (w : World) (x : Event) (h : x ∈ unlockTrace w) : x = .unlock := by
  unfold unlockTrace at h
  split at h
  · simpa using h
  · simp at h

theorem removeFile_fault (w : World) (fs : FS) (p : String) (h : w.removeFails = true) :
    removeFile w fs p = .error .removeFailed := by
  unfold removeFile
  rw [h]
  simp

theorem removeFile_not_found (w : World) (fs : FS) (p : String)
    (hrf : w.removeFails = false) (h : fs p = none) :
    removeFile w fs p = .error .removeNotFound := by
  unfold removeFile
  rw [hrf, h]
  simp

theorem dropRun_panics (w : World) (fs : FS) (g : DropRemovePathBlocking)
    (hg : g.should_remove = true) (e : Err)
    (hr : removeFile w fs g.path = .error e) :
    (DropRemovePathBlocking.dropRun w fs false g).2 = .panicked := by
  unfold DropRemovePathBlocking.dropRun
  rw [hg, hr]
  rfl

/-!
The claim theorems.
-/

/-- Claim C8: for every destination path, the temporary path computed by
the atomic path downloader is the destination file name with a part
pseudo-extension appended after any existing extension, never replacing
one; in particular report.csv becomes report.csv.part and README becomes
README.part. -/
theorem C8_temporary_path (dest : String) :
    temporaryPath dest = dest ++ ".part" ∧
    temporaryPath "report.csv" = "report.csv.part" ∧
    temporaryPath "README" = "README.part" :=
  ⟨temporaryPath_eq dest, by decide, by decide⟩

/-- Claim C6: the finalize operation try_drop of both guards reports not
removed with no I/O when should_remove is false, reports removed exactly
when should_remove is true and the deletion succeeds, and when the
deletion fails returns the error together with the guard itself, the
file system unchanged. -/
theorem C6_try_drop (w : World) (fs : FS) (g : DropRemovePathBlocking)
    (ga : DropRemovePath) :
    (g.should_remove = false → DropRemovePathBlocking.try_drop w fs g = (.ok false, fs)) ∧
    (g.should_remove = true → ∀ fs2, removeFile w fs g.path = .ok fs2 →
      DropRemovePathBlocking.try_drop w fs g = (.ok true, fs2)) ∧
    (g.should_remove = true → ∀ e, removeFile w fs g.path = .error e →
      DropRemovePathBlocking.try_drop w fs g = (.error (g, e), fs)) ∧
    (ga.should_remove = false → DropRemovePath.try_drop w fs ga = (.ok false, fs)) ∧
    (ga.should_remove = true → ∀ fs2, removeFile w fs ga.path = .ok fs2 →
      DropRemovePath.try_drop w fs ga = (.ok true, fs2)) ∧
    (ga.should_remove = true → ∀ e, removeFile w fs ga.path = .error e →
      DropRemovePath.try_drop w fs ga = (.error (ga, e), fs)) := by
  refine ⟨?_, ?_, ?_, ?_, ?_, ?_⟩
  · intro h
    simp [DropRemovePathBlocking.try_drop, h]
  · intro h fs2 hr
    simp [DropRemovePathBlocking.try_drop, h, hr]
  · intro h e hr
    simp [DropRemovePathBlocking.try_drop, h, hr]
  · intro h
    simp [DropRemovePath.try_drop, h]
  · intro h fs2 hr
    simp [DropRemovePath.try_drop, h, hr]
  · intro h e hr
    simp [DropRemovePath.try_drop, h, hr]

/-- Witness for C6 at concrete guards and file systems: a persisted
guard reports not removed, a live guard removes an existing file, and a
live guard over a missing file gets the error and the guard back. -/
theorem C6_try_drop_witness :
    DropRemovePathBlocking.try_drop witWorld fsOneP ⟨"p", false⟩ = (.ok false, fsOneP) ∧
    DropRemovePathBlocking.try_drop witWorld fsOneP ⟨"p", true⟩ =
      (.ok true, fsErase fsOneP "p") ∧
    DropRemovePathBlocking.try_drop witWorld fsEmpty ⟨"p", true⟩ =
      (.error (⟨"p", true⟩, .removeNotFound), fsEmpty) ∧
    DropRemovePath.try_drop witWorld fsOneP ⟨"p", false⟩ = (.ok false, fsOneP) ∧
    DropRemovePath.try_drop witWorld fsOneP ⟨"p", true⟩ =
      (.ok true, fsErase fsOneP "p") ∧
    DropRemovePath.try_drop witWorld fsEmpty ⟨"p", true⟩ =
      (.error (⟨"p", true⟩, .removeNotFound), fsEmpty) :=
  ⟨(C6_try_drop witWorld fsOneP ⟨"p", false⟩ ⟨"p", false⟩).1 rfl,
   (C6_try_drop witWorld fsOneP ⟨"p", true⟩ ⟨"p", true⟩).2.1 rfl (fsErase fsOneP "p") rfl,
   (C6_try_drop witWorld fsEmpty ⟨"p", true⟩ ⟨"p", true⟩).2.2.1 rfl .removeNotFound rfl,
   (C6_try_drop witWorld fsOneP ⟨"p", false⟩ ⟨"p", false⟩).2.2.2.1 rfl,
   (C6_try_drop witWorld fsOneP ⟨"p", true⟩ ⟨"p", true⟩).2.2.2.2.1 rfl
     (fsErase fsOneP "p") rfl,
   (C6_try_drop witWorld fsEmpty ⟨"p", true⟩ ⟨"p", true⟩).2.2.2.2.2 rfl
     .removeNotFound rfl⟩

/-- Claim C9: discarding a guard without explicit finalization attempts
best-effort removal exactly when should_remove is still true, and a
removal failure is surfaced loudly: a panic, or a printed message when
the thread is already panicking, and in the asynchronous guard the same
behavior inside the detached spawned task; it is never silently
swallowed. When should_remove is false, disposal performs no removal. -/
theorem C9_drop_behavior (w : World) (fs : FS) (pk : Bool)
    (g : DropRemovePathBlocking) (ga : DropRemovePath) :
    (g.should_remove = false →
      DropRemovePathBlocking.dropRun w fs pk g = (fs, .noAction)) ∧
    (g.should_remove = true → ∀ fs2, removeFile w fs g.path = .ok fs2 →
      DropRemovePathBlocking.dropRun w fs pk g = (fs2, .removed)) ∧
    (g.should_remove = true → ∀ e, removeFile w fs g.path = .error e →
      DropRemovePathBlocking.dropRun w fs pk g =
        (fs, if pk then .printedWarning else .panicked)) ∧
    (ga.should_remove = false →
      DropRemovePath.dropSpawnedTask w fs pk ga = (fs, .noAction)) ∧
    (ga.should_remove = true → ∀ fs2, removeFile w fs ga.path = .ok fs2 →
      DropRemovePath.dropSpawnedTask w fs pk ga = (fs2, .removed)) ∧
    (ga.should_remove = true → ∀ e, removeFile w fs ga.path = .error e →
      DropRemovePath.dropSpawnedTask w fs pk ga =
        (fs, if pk then .printedWarning else .panicked)) := by
  refine ⟨?_, ?_, ?_, ?_, ?_, ?_⟩
  · intro h
    simp [DropRemovePathBlocking.dropRun, h]
  · intro h fs2 hr
    simp [DropRemovePathBlocking.dropRun, h, hr]
  · intro h e hr
    simp [DropRemovePathBlocking.dropRun, h, hr]
  · intro h
    simp [DropRemovePath.dropSpawnedTask, h]
  · intro h fs2 hr
    simp [DropRemovePath.dropSpawnedTask, h, hr]
  · intro h e hr
    simp [DropRemovePath.dropSpawnedTask, h, hr]

/-- Witness for C9 at concrete guards: no action when persisted, removal
when the file exists, a panic when removal fails outside a panic, and a
printed message when already panicking. -/
theorem C9_drop_behavior_witness :
    DropRemovePathBlocking.dropRun witWorld fsOneP false ⟨"p", false⟩ =
      (fsOneP, .noAction) ∧
    DropRemovePathBlocking.dropRun witWorld fsOneP false ⟨"p", true⟩ =
      (fsErase fsOneP "p", .removed) ∧
    DropRemovePathBlocking.dropRun witWorld fsEmpty false ⟨"p", true⟩ =
      (fsEmpty, .panicked) ∧
    DropRemovePath.dropSpawnedTask witWorld fsEmpty true ⟨"p", true⟩ =
      (fsEmpty, .printedWarning) :=
  ⟨(C9_drop_behavior witWorld fsOneP false ⟨"p", false⟩ ⟨"p", false⟩).1 rfl,
   (C9_drop_behavior witWorld fsOneP false ⟨"p", true⟩ ⟨"p", true⟩).2.1 rfl
     (fsErase fsOneP "p") rfl,
   (C9_drop_behavior witWorld fsEmpty false ⟨"p", true⟩ ⟨"p", true⟩).2.2.1 rfl
     .removeNotFound rfl,
   (C9_drop_behavior witWorld fsEmpty true ⟨"p", true⟩ ⟨"p", true⟩).2.2.2.2.2 rfl
     .removeNotFound rfl⟩

/-- Claim C7: on a locking-capable platform the downloader takes the
non-blocking exclusive lock and fails terminally with the lock error
when the lock is already held; on a platform without advisory locking it
opens with exclusive-create semantics and fails terminally when the
temporary file already exists. -/
theorem C7_lock_or_exclusive_create (w : World) (fs0 : FS) (dest : String) (b : List Byte) :
    (w.lockingSupported = true → w.openFails = false → w.tempLocked = true →
      (download_to_path_blocking w fs0 dest).result = .error .lockFailed) ∧
    (w.lockingSupported = false → fs0 (temporaryPath dest) = some b →
      (download_to_path_blocking w fs0 dest).result = .error .openFailed) := by
  constructor
  · intro hl ho ht
    have hopen : openTemporaryFile w fs0 (temporaryPath dest) =
        .ok (fsCreateKeep fs0 (temporaryPath dest)) := by
      unfold openTemporaryFile
      rw [hl, ho]
      simp
    simp [download_to_path_blocking, hopen, hl, ht]
  · intro hl hb
    have hopen : openTemporaryFile w fs0 (temporaryPath dest) = .error .openFailed := by
      unfold openTemporaryFile
      rw [hl, hb]
      simp
    simp [download_to_path_blocking, hopen]

/-- Witness for C7: a held lock fails the call on a locking platform,
and a pre-existing temporary file fails the call on a platform without
locking. -/
theorem C7_lock_or_exclusive_create_witness :
    (download_to_path_blocking lockedWorld fsEmpty "d").result = .error .lockFailed ∧
    (download_to_path_blocking noLockWorld fsStale "d").result = .error .openFailed :=
  ⟨(C7_lock_or_exclusive_create lockedWorld fsEmpty "d" []).1 rfl rfl rfl,
   (C7_lock_or_exclusive_create noLockWorld fsStale "d" [7]).2 rfl rfl⟩

theorem downloadToFileLoop_ok (chunks : List (List Byte)) :
    ∀ (i : Nat) (f : File) (acc : Nat),
      downloadToFileLoop none false i chunks f acc =
        .ok (chunks.foldl File.write_all f, acc + (chunks.map List.length).sum) := by
  induction chunks with
  | nil =>
    intro i f acc
    simp [downloadToFileLoop]
  | cons c rest ih =>
    intro i f acc
    simp only [downloadToFileLoop]
    rw [if_neg (by simp)]
    rw [ih (i + 1) (f.write_all c) (acc + c.length)]
    simp [Nat.add_assoc]

/-- Counterexample to claim C1 as stated: with a declared content length
of 5 and only 3 streamed body bytes, download_to_path_blocking succeeds
and publishes the streamed bytes at the destination instead of failing
with a length-mismatch terminal error. -/
theorem C1_counterexample :
    mismatchWorld.response = some ⟨200, some 5, [[1, 2, 3]], false⟩ ∧
    (download_to_path_blocking mismatchWorld fsEmpty "d").result = .ok () ∧
    (download_to_path_blocking mismatchWorld fsEmpty "d").fs "d" = some [1, 2, 3] ∧
    (5 : Nat) ≠ 3 :=
  ⟨rfl, rfl, rfl, by decide⟩

/-- Claim C1 amended: the atomic path downloader performs no
content-length verification at all; its outcome is unchanged by the
declared content length of the response. The length-mismatch terminal
error belongs to the streaming helper download_to_file, which fails with
a length-mismatch error whenever the declared length L differs from the
streamed byte count. -/
theorem C1_length_check_in_download_to_file (w : World) (r : Response) (fs0 : FS)
    (dest : String) (file : File) (L : Nat) :
    (download_to_path_blocking { w with response := some r } fs0 dest =
      download_to_path_blocking
        { w with response := some { r with content_length := none } } fs0 dest) ∧
    (w.response = some r → r.content_length = some L →
      error_for_status r.status = false → w.setLenFails = false →
      w.writeFailAt = none → r.streamError = false →
      (r.chunks.map List.length).sum ≠ L →
      download_to_file w file =
        .error (.lengthMismatch L ((r.chunks.map List.length).sum))) := by
  constructor
  · rfl
  · intro hresp hcl hst hset hwf hse hne
    have hne2 : L ≠ (r.chunks.map List.length).sum := fun h => hne h.symm
    simp [download_to_file, hresp, hst, hcl, hset, hwf, hse, downloadToFileLoop_ok, hne2]

/-- Witness for the amended C1: the mismatch world streams 3 bytes
against a declared length of 5, and download_to_file rejects it with the
length-mismatch error. -/
theorem C1_length_check_witness :
    download_to_file mismatchWorld ⟨[], 0⟩ = .error (.lengthMismatch 5 3) :=
  (C1_length_check_in_download_to_file mismatchWorld ⟨200, some 5, [[1, 2, 3]], false⟩
    fsEmpty "d" ⟨[], 0⟩ 5).2 rfl rfl rfl rfl rfl rfl (by decide)

/-- Counterexample to claim C2 as stated: the first terminal failure of
this run is the 404 status error of the closure, but because the
subsequent lock release fails, the call returns the unlock error, which
replaces the original one. -/
theorem C2_counterexample :
    (download_to_path_blocking badStatusUnlockWorld fsEmpty "d").result =
      .error .unlockFailed ∧
    (downloadClosure badStatusUnlockWorld (fsSet fsEmpty (temporaryPath "d") [])
      (temporaryPath "d") "d").1 = .error (.badStatus 404) ∧
    Err.unlockFailed ≠ Err.badStatus 404 :=
  ⟨rfl, rfl, by decide⟩

/-- Claim C2 amended: for a call that fails in the closure phases
(request, status, stream read, write, flush, sync, rename) with the lock
acquired and the lock release succeeding, the returned error is exactly
that first terminal failure, and a cleanup failure during guard
finalization never replaces it: the guard is persisted rather than
retried and its final drop performs no action. The guarantee does not
extend to the lock phases: with the same closure failure a failing lock
release makes the call return the unlock error instead; a
lock-acquisition failure whose guard-drop cleanup fails ends in a panic
rather than a logged warning; and a lock-release failure after a
successful rename makes the guard drop panic on the renamed-away
temporary file while the call carries the unlock error. -/
theorem C2_error_precedence (w : World) (fs0 fs1 fs2 : FS) (dest : String) (e : Err)
    (tr : List Event) :
    (openTemporaryFile w fs0 (temporaryPath dest) = .ok fs1 →
      (w.lockingSupported && w.tempLocked) = false →
      downloadClosure w fs1 (temporaryPath dest) dest = (.error e, fs2, tr) →
      (w.lockingSupported && w.unlockFails) = false →
      (download_to_path_blocking w fs0 dest).result = .error e ∧
      ((download_to_path_blocking w fs0 dest).guard = none ∨
        (download_to_path_blocking w fs0 dest).guard =
          some ⟨temporaryPath dest, false⟩) ∧
      ((download_to_path_blocking w fs0 dest).dropOutcome = none ∨
        (download_to_path_blocking w fs0 dest).dropOutcome = some .noAction)) ∧
    (openTemporaryFile w fs0 (temporaryPath dest) = .ok fs1 →
      (w.lockingSupported && w.tempLocked) = false →
      downloadClosure w fs1 (temporaryPath dest) dest = (.error e, fs2, tr) →
      (w.lockingSupported && w.unlockFails) = true →
      (download_to_path_blocking w fs0 dest).result = .error .unlockFailed) ∧
    (openTemporaryFile w fs0 (temporaryPath dest) = .ok fs1 →
      (w.lockingSupported && w.tempLocked) = true →
      w.removeFails = true →
      (download_to_path_blocking w fs0 dest).result = .error .lockFailed ∧
      (download_to_path_blocking w fs0 dest).dropOutcome = some .panicked) ∧
    (openTemporaryFile w fs0 (temporaryPath dest) = .ok fs1 →
      (w.lockingSupported && w.tempLocked) = false →
      downloadClosure w fs1 (temporaryPath dest) dest = (.ok (), fs2, tr) →
      (w.lockingSupported && w.unlockFails) = true →
      w.removeFails = false →
      (download_to_path_blocking w fs0 dest).result = .error .unlockFailed ∧
      (download_to_path_blocking w fs0 dest).dropOutcome = some .panicked) := by
  refine ⟨?_, ?_, ?_, ?_⟩
  · intro hopen hnl hcl hul
    rcases run_cases w fs0 dest with
      ⟨e0, ho, hrun⟩ |
      ⟨fs1b, ho, ⟨hlk, hrun⟩ | ⟨hlk, res, fs2b, trb, hclb,
        ⟨hul2, hrun⟩ | ⟨hul2, ⟨hres, hrun⟩ | ⟨e1, hres, hF | hG⟩⟩⟩⟩
    · rw [hopen] at ho
      exact absurd ho (by simp)
    · rw [hopen] at ho
      injection ho with ho
      subst ho
      rw [hlk] at hnl
      exact absurd hnl (by simp)
    · rw [hul] at hul2
      exact absurd hul2 (by simp)
    · rw [hopen] at ho
      injection ho with ho
      subst ho
      subst hres
      rw [hcl] at hclb
      simp at hclb
    · rw [hopen] at ho
      injection ho with ho
      subst ho
      subst hres
      rw [hcl] at hclb
      injection hclb with h1 h2
      injection h2 with h2 h3
      injection h1 with h1
      subst h1
      subst h2
      obtain ⟨fs3, htd, hfs3, hrun⟩ := hF
      rw [hrun]
      exact ⟨rfl, Or.inl rfl, Or.inl rfl⟩
    · rw [hopen] at ho
      injection ho with ho
      subst ho
      subst hres
      rw [hcl] at hclb
      injection hclb with h1 h2
      injection h2 with h2 h3
      injection h1 with h1
      subst h1
      subst h2
      obtain ⟨e2, htd, hrun⟩ := hG
      rw [hrun]
      exact ⟨rfl, Or.inr rfl, Or.inr rfl⟩
  · intro hopen hnl hcl hul
    rcases run_cases w fs0 dest with
      ⟨e0, ho, hrun⟩ |
      ⟨fs1b, ho, ⟨hlk, hrun⟩ | ⟨hlk, res, fs2b, trb, hclb,
        ⟨hul2, hrun⟩ | ⟨hul2, ⟨hres, hrun⟩ | ⟨e1, hres, hF | hG⟩⟩⟩⟩
    · rw [hopen] at ho
      exact absurd ho (by simp)
    · rw [hlk] at hnl
      exact absurd hnl (by simp)
    · rw [hrun]
    · rw [hul] at hul2
      exact absurd hul2 (by simp)
    · rw [hul] at hul2
      exact absurd hul2 (by simp)
    · rw [hul] at hul2
      exact absurd hul2 (by simp)
  · intro hopen hlk hrf
    rcases run_cases w fs0 dest with
      ⟨e0, ho, hrun⟩ |
      ⟨fs1b, ho, ⟨hlk2, hrun⟩ | ⟨hlk2, res, fs2b, trb, hclb,
        ⟨hul2, hrun⟩ | ⟨hul2, ⟨hres, hrun⟩ | ⟨e1, hres, hF | hG⟩⟩⟩⟩
    · rw [hopen] at ho
      exact absurd ho (by simp)
    · simp only [hrun]
      refine ⟨trivial, ?_⟩
      rw [dropRun_panics w fs1b (DropRemovePathBlocking.new (temporaryPath dest)) rfl
        .removeFailed (removeFile_fault w fs1b _ hrf)]
    · rw [hlk] at hlk2
      exact absurd hlk2 (by simp)
    · rw [hlk] at hlk2
      exact absurd hlk2 (by simp)
    · rw [hlk] at hlk2
      exact absurd hlk2 (by simp)
    · rw [hlk] at hlk2
      exact absurd hlk2 (by simp)
  · intro hopen hnl hcl hul hrf
    rcases run_cases w fs0 dest with
      ⟨e0, ho, hrun⟩ |
      ⟨fs1b, ho, ⟨hlk, hrun⟩ | ⟨hlk, res, fs2b, trb, hclb,
        ⟨hul2, hrun⟩ | ⟨hul2, ⟨hres, hrun⟩ | ⟨e1, hres, hF | hG⟩⟩⟩⟩
    · rw [hopen] at ho
      exact absurd ho (by simp)
    · rw [hlk] at hnl
      exact absurd hnl (by simp)
    · rw [hopen] at ho
      injection ho with ho
      subst ho
      rw [hcl] at hclb
      injection hclb with h1 h2
      injection h2 with h2 h3
      subst h2
      rcases downloadClosure_cases w fs1 (temporaryPath dest) dest with
        ⟨e2, hce, _, _⟩ | ⟨_, _, htmpnone, _⟩
      · rw [hcl] at hce
        exact absurd hce (by simp)
      · have hnone : fs2 (temporaryPath dest) = none := by
          have h4 := htmpnone (temporaryPath_ne dest)
          rw [hcl] at h4
          exact h4
        simp only [hrun]
        refine ⟨trivial, ?_⟩
        rw [dropRun_panics w fs2 (DropRemovePathBlocking.new (temporaryPath dest)) rfl
          .removeNotFound (removeFile_not_found w fs2 _ hrf hnone)]
    · rw [hul] at hul2
      exact absurd hul2 (by simp)
    · rw [hul] at hul2
      exact absurd hul2 (by simp)
    · rw [hul] at hul2
      exact absurd hul2 (by simp)

/-- Witness for the amended C2 at four concrete runs: a 404 with faulted
cleanup still returns the status error with the guard persisted; a 404
with a failing unlock returns the unlock error; a held lock with faulted
cleanup returns the lock error and the guard drop panics; a successful
rename followed by a failing unlock carries the unlock error and the
guard drop panics on the renamed-away temp file. -/
theorem C2_error_precedence_witness :
    ((download_to_path_blocking cleanupFailWorld fsEmpty "d").result =
        .error (.badStatus 404) ∧
      ((download_to_path_blocking cleanupFailWorld fsEmpty "d").guard = none ∨
        (download_to_path_blocking cleanupFailWorld fsEmpty "d").guard =
          some ⟨temporaryPath "d", false⟩) ∧
      ((download_to_path_blocking cleanupFailWorld fsEmpty "d").dropOutcome = none ∨
        (download_to_path_blocking cleanupFailWorld fsEmpty "d").dropOutcome =
          some .noAction)) ∧
    (download_to_path_blocking badStatusUnlockWorld fsEmpty "d").result =
      .error .unlockFailed ∧
    ((download_to_path_blocking lockedCleanupFailWorld fsEmpty "d").result =
        .error .lockFailed ∧
      (download_to_path_blocking lockedCleanupFailWorld fsEmpty "d").dropOutcome =
        some .panicked) ∧
    ((download_to_path_blocking renameThenUnlockFailWorld fsEmpty "d").result =
        .error .unlockFailed ∧
      (download_to_path_blocking renameThenUnlockFailWorld fsEmpty "d").dropOutcome =
        some .panicked) :=
  ⟨(C2_error_precedence cleanupFailWorld fsEmpty
      (fsCreateKeep fsEmpty (temporaryPath "d")) (fsCreateKeep fsEmpty (temporaryPath "d"))
      "d" (.badStatus 404) [.requestSent]).1 rfl rfl rfl rfl,
   (C2_error_precedence badStatusUnlockWorld fsEmpty
      (fsCreateKeep fsEmpty (temporaryPath "d")) (fsCreateKeep fsEmpty (temporaryPath "d"))
      "d" (.badStatus 404) [.requestSent]).2.1 rfl rfl rfl rfl,
   (C2_error_precedence lockedCleanupFailWorld fsEmpty
      (fsCreateKeep fsEmpty (temporaryPath "d")) fsEmpty "d" .openFailed []).2.2.1
      rfl rfl rfl,
   (C2_error_precedence renameThenUnlockFailWorld fsEmpty
      (fsCreateKeep fsEmpty (temporaryPath "d"))
      ((downloadClosure renameThenUnlockFailWorld
        (fsCreateKeep fsEmpty (temporaryPath "d")) (temporaryPath "d") "d").2.1)
      "d" .openFailed
      ((downloadClosure renameThenUnlockFailWorld
        (fsCreateKeep fsEmpty (temporaryPath "d")) (temporaryPath "d") "d").2.2)).2.2.2
      rfl rfl rfl rfl rfl⟩

/-- Claim C3, shown against the code as a bug: the source opens the
temporary file with write and create but without truncate, while its own
comment at line 33 of download_to_path.rs says Create and overwrite the
temporary file. A stale temporary file longer than the download keeps
its tail past the written bytes, and the rename then publishes it: with
a stale temp file 7, 7, 7, 7 and a streamed body 1, 2, the call succeeds
and the destination holds 1, 2, 7, 7 instead of 1, 2. -/
theorem C3_stale_tail_survives :
    fsStale4 (temporaryPath "d") = some [7, 7, 7, 7] ∧
    (download_to_path_blocking staleWorld fsStale4 "d").result = .ok () ∧
    (download_to_path_blocking staleWorld fsStale4 "d").fs "d" = some [1, 2, 7, 7] ∧
    (download_to_path_blocking staleWorld fsStale4 "d").fs (temporaryPath "d") = none :=
  ⟨rfl, rfl, rfl, rfl⟩

/-- Claim C4: for every call in which a phase after temporary-file
creation fails, provided the cleanup removal itself is not faulted, the
temporary path does not exist once the call returns. -/
theorem C4_temp_removed_on_failure (w : World) (fs0 : FS) (dest : String) (e : Err)
    (hrf : w.removeFails = false)
    (he : (download_to_path_blocking w fs0 dest).result = .error e)
    (hne : e ≠ .openFailed) :
    (download_to_path_blocking w fs0 dest).fs (temporaryPath dest) = none := by
  rcases run_cases w fs0 dest with
    ⟨e0, hoe, hrun⟩ |
    ⟨fs1, hoe, ⟨hlk, hrun⟩ | ⟨hlk, res, fs2, tr, hclb,
      ⟨hul, hrun⟩ | ⟨hul, ⟨hres, hrun⟩ | ⟨e1, hres, hF | hG⟩⟩⟩⟩
  · simp only [hrun] at he
    injection he with he
    subst he
    exact absurd (openTemporaryFile_error w fs0 (temporaryPath dest) _ hoe) hne
  · simp only [hrun]
    exact dropRun_removes w fs1 false (DropRemovePathBlocking.new (temporaryPath dest))
      rfl hrf
  · simp only [hrun]
    exact dropRun_removes w fs2 false (DropRemovePathBlocking.new (temporaryPath dest))
      rfl hrf
  · subst hres
    simp only [hrun] at he
    exact absurd he (by simp)
  · obtain ⟨fs3, htd, hfs3, hrun⟩ := hF
    simp only [hrun]
    rw [hfs3]
    exact fsErase_self fs2 (temporaryPath dest)
  · obtain ⟨e2, htd, hrun⟩ := hG
    have hrm := try_drop_error_removeFile w fs2 fs2
      (DropRemovePathBlocking.new (temporaryPath dest))
      (DropRemovePathBlocking.new (temporaryPath dest)) e2 rfl htd
    have h2 := removeFile_error_not_found w fs2
      (DropRemovePathBlocking.new (temporaryPath dest)).path e2 hrf hrm
    simp only [hrun]
    exact h2

/-- Witness for C4: a 404 run leaves no temporary file behind. -/
theorem C4_temp_removed_on_failure_witness :
    (download_to_path_blocking notFoundWorld fsEmpty "d").fs (temporaryPath "d") = none :=
  C4_temp_removed_on_failure notFoundWorld fsEmpty "d" (.badStatus 404) rfl rfl
    (by decide)

/-- Counterexample to claim C5 as stated: the destination pre-exists
with content 9; the call fails because the unlock after a successful
rename errors, yet the destination now holds the freshly downloaded
bytes instead of its previous content. -/
theorem C5_counterexample :
    fsDest9 "d" = some [9] ∧
    (download_to_path_blocking renameThenUnlockFailWorld fsDest9 "d").result =
      .error .unlockFailed ∧
    (download_to_path_blocking renameThenUnlockFailWorld fsDest9 "d").fs "d" =
      some [1, 2] :=
  ⟨rfl, rfl, rfl⟩

/-- Claim C5 amended: the destination is written only by the single
atomic rename, so every failed call in which the rename was not
performed leaves the destination exactly as it was; only a lock-release
failure after a successful rename can return an error with the
destination already replaced. -/
theorem C5_dest_preserved (w : World) (fs0 : FS) (dest : String) (e : Err)
    (he : (download_to_path_blocking w fs0 dest).result = .error e)
    (hnr : Event.rename ∉ (download_to_path_blocking w fs0 dest).trace) :
    (download_to_path_blocking w fs0 dest).fs dest = fs0 dest := by
  have hnd : dest ≠ temporaryPath dest := fun h => temporaryPath_ne dest h.symm
  rcases run_cases w fs0 dest with
    ⟨e0, hoe, hrun⟩ |
    ⟨fs1, hoe, ⟨hlk, hrun⟩ | ⟨hlk, res, fs2, tr, hclb,
      ⟨hul, hrun⟩ | ⟨hul, ⟨hres, hrun⟩ | ⟨e1, hres, hF | hG⟩⟩⟩⟩
  · simp only [hrun]
  · have h3 : fs1 dest = fs0 dest := by
      rw [openTemporaryFile_ok w fs0 fs1 (temporaryPath dest) hoe]
      exact fsCreateKeep_ne fs0 (temporaryPath dest) dest hnd
    simp only [hrun]
    exact (dropRun_frame w fs1 false (DropRemovePathBlocking.new (temporaryPath dest))
      dest hnd).trans h3
  · have h3 : fs1 dest = fs0 dest := by
      rw [openTemporaryFile_ok w fs0 fs1 (temporaryPath dest) hoe]
      exact fsCreateKeep_ne fs0 (temporaryPath dest) dest hnd
    rcases downloadClosure_cases w fs1 (temporaryPath dest) dest with
      ⟨e2, hce, hcf, hcr⟩ | ⟨hcok, hcr, _, _⟩
    · have h2 : fs2 dest = fs1 dest := by
        have := hcf dest hnd
        rw [hclb] at this
        exact this
      simp only [hrun]
      exact (dropRun_frame w fs2 false (DropRemovePathBlocking.new (temporaryPath dest))
        dest hnd).trans (h2.trans h3)
    · exfalso
      apply hnr
      have hcr2 : Event.rename ∈ tr := by
        rw [hclb] at hcr
        exact hcr
      simp only [hrun]
      exact List.mem_cons_of_mem _
        (List.mem_append.mpr (Or.inr (List.mem_append.mpr (Or.inl hcr2))))
  · subst hres
    simp only [hrun] at he
    exact absurd he (by simp)
  · have h3 : fs1 dest = fs0 dest := by
      rw [openTemporaryFile_ok w fs0 fs1 (temporaryPath dest) hoe]
      exact fsCreateKeep_ne fs0 (temporaryPath dest) dest hnd
    subst hres
    rcases downloadClosure_cases w fs1 (temporaryPath dest) dest with
      ⟨e2, hce, hcf, _⟩ | ⟨hcok, _, _, _⟩
    · have h2 : fs2 dest = fs1 dest := by
        have := hcf dest hnd
        rw [hclb] at this
        exact this
      obtain ⟨fs3, htd, hfs3, hrun⟩ := hF
      simp only [hrun]
      rw [hfs3]
      exact (fsErase_ne fs2 (temporaryPath dest) dest hnd).trans (h2.trans h3)
    · rw [hclb] at hcok
      exact absurd hcok (by simp)
  · have h3 : fs1 dest = fs0 dest := by
      rw [openTemporaryFile_ok w fs0 fs1 (temporaryPath dest) hoe]
      exact fsCreateKeep_ne fs0 (temporaryPath dest) dest hnd
    subst hres
    rcases downloadClosure_cases w fs1 (temporaryPath dest) dest with
      ⟨e2, hce, hcf, _⟩ | ⟨hcok, _, _, _⟩
    · have h2 : fs2 dest = fs1 dest := by
        have := hcf dest hnd
        rw [hclb] at this
        exact this
      obtain ⟨e3, htd, hrun⟩ := hG
      simp only [hrun]
      exact h2.trans h3
    · rw [hclb] at hcok
      exact absurd hcok (by simp)

/-- Witness for the amended C5: a 404 run leaves the pre-existing
destination content 9 in place. -/
theorem C5_dest_preserved_witness :
    (download_to_path_blocking notFoundWorld fsDest9 "d").fs "d" = fsDest9 "d" :=
  C5_dest_preserved notFoundWorld fsDest9 "d" (.badStatus 404) rfl (by decide)

/-- Claim C10: the rename is performed while the advisory lock is still
held: in every run no rename event follows an unlock or close event in
the trace, and whenever the unlock happens either the rename already
happened or the operation has failed. -/
theorem C10_unlock_after_rename (w : World) (fs0 : FS) (dest : String) :
    noRenameAfter .unlock (download_to_path_blocking w fs0 dest).trace ∧
    noRenameAfter .closeHandle (download_to_path_blocking w fs0 dest).trace ∧
    (Event.unlock ∈ (download_to_path_blocking w fs0 dest).trace →
      Event.rename ∈ (download_to_path_blocking w fs0 dest).trace ∨
      (download_to_path_blocking w fs0 dest).result ≠ .ok ()) := by
  rcases run_cases w fs0 dest with
    ⟨e0, hoe, hrun⟩ |
    ⟨fs1, hoe, ⟨hlk, hrun⟩ | ⟨hlk, res, fs2, tr, hclb,
      ⟨hul, hrun⟩ | ⟨hul, ⟨hres, hrun⟩ | ⟨e1, hres, hF | hG⟩⟩⟩⟩
  · simp only [hrun]
    exact ⟨trivial, trivial, fun h => absurd h (by simp)⟩
  · simp only [hrun]
    exact ⟨noRenameAfter_of_no_rename _ _ (by simp),
      noRenameAfter_of_no_rename _ _ (by simp), fun h => absurd h (by simp)⟩
  · have hnu : Event.unlock ∉ tr := by
      have h := downloadClosure_no_unlock w fs1 (temporaryPath dest) dest
      rw [hclb] at h
      exact h
    have hnc : Event.closeHandle ∉ tr := by
      have h := downloadClosure_no_closeHandle w fs1 (temporaryPath dest) dest
      rw [hclb] at h
      exact h
    simp only [hrun]
    have hshape : Event.openTemp :: (lockTrace w ++ (tr ++ [Event.unlock])) =
        (Event.openTemp :: (lockTrace w ++ tr)) ++ [Event.unlock] := by
      simp [List.append_assoc]
    refine ⟨?_, ?_, ?_⟩
    · rw [hshape]
      apply noRenameAfter_append
      · intro h
        rcases List.mem_cons.mp h with h | h
        · exact absurd h (by decide)
        · rcases List.mem_append.mp h with h | h
          · exact absurd (lockTrace_mem w _ h) (by decide)
          · exact hnu h
      · exact ⟨fun _ => by simp, trivial⟩
    · apply noRenameAfter_of_no_marker
      intro h
      rcases List.mem_cons.mp h with h | h
      · exact absurd h (by decide)
      · rcases List.mem_append.mp h with h | h
        · exact absurd (lockTrace_mem w _ h) (by decide)
        · rcases List.mem_append.mp h with h | h
          · exact hnc h
          · exact absurd h (by decide)
    · intro _
      right
      simp
  · subst hres
    have hnu : Event.unlock ∉ tr := by
      have h := downloadClosure_no_unlock w fs1 (temporaryPath dest) dest
      rw [hclb] at h
      exact h
    have hnc : Event.closeHandle ∉ tr := by
      have h := downloadClosure_no_closeHandle w fs1 (temporaryPath dest) dest
      rw [hclb] at h
      exact h
    have hcr : Event.rename ∈ tr := by
      rcases downloadClosure_cases w fs1 (temporaryPath dest) dest with
        ⟨e2, hce, _, _⟩ | ⟨_, hcr, _, _⟩
      · rw [hclb] at hce
        exact absurd hce (by simp)
      · rw [hclb] at hcr
        exact hcr
    simp only [hrun, baseTrace]
    have hshape1 :
        (Event.openTemp ::
          (lockTrace w ++ (tr ++ (unlockTrace w ++ [Event.closeHandle])))) ++
            [Event.guardPersist] =
        (Event.openTemp :: (lockTrace w ++ tr)) ++
          (unlockTrace w ++ [Event.closeHandle, Event.guardPersist]) := by
      simp [List.append_assoc]
    have hshape2 :
        (Event.openTemp ::
          (lockTrace w ++ (tr ++ (unlockTrace w ++ [Event.closeHandle])))) ++
            [Event.guardPersist] =
        (Event.openTemp :: (lockTrace w ++ (tr ++ unlockTrace w))) ++
          [Event.closeHandle, Event.guardPersist] := by
      simp [List.append_assoc]
    refine ⟨?_, ?_, ?_⟩
    · rw [hshape1]
      apply noRenameAfter_append
      · intro h
        rcases List.mem_cons.mp h with h | h
        · exact absurd h (by decide)
        · rcases List.mem_append.mp h with h | h
          · exact absurd (lockTrace_mem w _ h) (by decide)
          · exact hnu h
      · apply noRenameAfter_of_no_rename
        intro h
        rcases List.mem_append.mp h with h | h
        · exact absurd (unlockTrace_mem w _ h) (by decide)
        · exact absurd h (by decide)
    · rw [hshape2]
      apply noRenameAfter_append
      · intro h
        rcases List.mem_cons.mp h with h | h
        · exact absurd h (by decide)
        · rcases List.mem_append.mp h with h | h
          · exact absurd (lockTrace_mem w _ h) (by decide)
          · rcases List.mem_append.mp h with h | h
            · exact hnc h
            · exact absurd (unlockTrace_mem w _ h) (by decide)
      · apply noRenameAfter_of_no_rename
        intro h
        exact absurd h (by decide)
    · intro _
      left
      exact List.mem_append_left _ (List.mem_cons_of_mem _
        (List.mem_append.mpr (Or.inr (List.mem_append.mpr (Or.inl hcr)))))
  · obtain ⟨fs3, htd, hfs3, hrun⟩ := hF
    have hnu : Event.unlock ∉ tr := by
      have h := downloadClosure_no_unlock w fs1 (temporaryPath dest) dest
      rw [hclb] at h
      exact h
    have hnc : Event.closeHandle ∉ tr := by
      have h := downloadClosure_no_closeHandle w fs1 (temporaryPath dest) dest
      rw [hclb] at h
      exact h
    simp only [hrun, baseTrace]
    have hshape1 :
        (Event.openTemp ::
          (lockTrace w ++ (tr ++ (unlockTrace w ++ [Event.closeHandle])))) ++
            [Event.guardTryDrop] =
        (Event.openTemp :: (lockTrace w ++ tr)) ++
          (unlockTrace w ++ [Event.closeHandle, Event.guardTryDrop]) := by
      simp [List.append_assoc]
    have hshape2 :
        (Event.openTemp ::
          (lockTrace w ++ (tr ++ (unlockTrace w ++ [Event.closeHandle])))) ++
            [Event.guardTryDrop] =
        (Event.openTemp :: (lockTrace w ++ (tr ++ unlockTrace w))) ++
          [Event.closeHandle, Event.guardTryDrop] := by
      simp [List.append_assoc]
    refine ⟨?_, ?_, ?_⟩
    · rw [hshape1]
      apply noRenameAfter_append
      · intro h
        rcases List.mem_cons.mp h with h | h
        · exact absurd h (by decide)
        · rcases List.mem_append.mp h with h | h
          · exact absurd (lockTrace_mem w _ h) (by decide)
          · exact hnu h
      · apply noRenameAfter_of_no_rename
        intro h
        rcases List.mem_append.mp h with h | h
        · exact absurd (unlockTrace_mem w _ h) (by decide)
        · exact absurd h (by decide)
    · rw [hshape2]
      apply noRenameAfter_append
      · intro h
        rcases List.mem_cons.mp h with h | h
        · exact absurd h (by decide)
        · rcases List.mem_append.mp h with h | h
          · exact absurd (lockTrace_mem w _ h) (by decide)
          · rcases List.mem_append.mp h with h | h
            · exact hnc h
            · exact absurd (unlockTrace_mem w _ h) (by decide)
      · apply noRenameAfter_of_no_rename
        intro h
        exact absurd h (by decide)
    · intro _
      right
      simp
  · obtain ⟨e2, htd, hrun⟩ := hG
    have hnu : Event.unlock ∉ tr := by
      have h := downloadClosure_no_unlock w fs1 (temporaryPath dest) dest
      rw [hclb] at h
      exact h
    have hnc : Event.closeHandle ∉ tr := by
      have h := downloadClosure_no_closeHandle w fs1 (temporaryPath dest) dest
      rw [hclb] at h
      exact h
    simp only [hrun, baseTrace]
    have hshape1 :
        (Event.openTemp ::
          (lockTrace w ++ (tr ++ (unlockTrace w ++ [Event.closeHandle])))) ++
            [Event.guardTryDrop, Event.warnCleanup] =
        (Event.openTemp :: (lockTrace w ++ tr)) ++
          (unlockTrace w ++ [Event.closeHandle, Event.guardTryDrop, Event.warnCleanup]) := by
      simp [List.append_assoc]
    have hshape2 :
        (Event.openTemp ::
          (lockTrace w ++ (tr ++ (unlockTrace w ++ [Event.closeHandle])))) ++
            [Event.guardTryDrop, Event.warnCleanup] =
        (Event.openTemp :: (lockTrace w ++ (tr ++ unlockTrace w))) ++
          [Event.closeHandle, Event.guardTryDrop, Event.warnCleanup] := by
      simp [List.append_assoc]
    refine ⟨?_, ?_, ?_⟩
    · rw [hshape1]
      apply noRenameAfter_append
      · intro h
        rcases List.mem_cons.mp h with h | h
        · exact absurd h (by decide)
        · rcases List.mem_append.mp h with h | h
          · exact absurd (lockTrace_mem w _ h) (by decide)
          · exact hnu h
      · apply noRenameAfter_of_no_rename
        intro h
        rcases List.mem_append.mp h with h | h
        · exact absurd (unlockTrace_mem w _ h) (by decide)
        · exact absurd h (by decide)
    · rw [hshape2]
      apply noRenameAfter_append
      · intro h
        rcases List.mem_cons.mp h with h | h
        · exact absurd h (by decide)
        · rcases List.mem_append.mp h with h | h
          · exact absurd (lockTrace_mem w _ h) (by decide)
          · rcases List.mem_append.mp h with h | h
            · exact hnc h
            · exact absurd (unlockTrace_mem w _ h) (by decide)
      · apply noRenameAfter_of_no_rename
        intro h
        exact absurd h (by decide)
    · intro _
      right
      simp

/-- Witness for C10 at a successful locking run: the unlock is in the
trace and so is the earlier rename. -/
theorem C10_unlock_after_rename_witness :
    Event.rename ∈ (download_to_path_blocking mismatchWorld fsEmpty "d").trace ∨
    (download_to_path_blocking mismatchWorld fsEmpty "d").result ≠ .ok () :=
  (C10_unlock_after_rename mismatchWorld fsEmpty "d").2.2 (by decide)

end NdUtil
